import Mathlib

/-!
# Verification of the restaurant-app checkout and stock-adjustment core

Shallow embedding of the two transactional HTTP handlers of the repository:

* `PUT /api/menu/[id]/stock` (stock adjuster, `src/app/api/menu/[id]/stock/route.ts`)
* `POST` checkout (checkout transactor, in the order route file)

JavaScript numbers are modelled as `ℚ` (all arithmetic performed by these
handlers — addition, subtraction, multiplication, comparison — is exact on
the values involved).  The relational store is a `DB` record of lists; the
Prisma transaction of each handler is modelled as the pure state update it
commits, since the handlers are single requests and the model is sequential.
Store-generated fields (row ids, timestamps) are outside the model.
-/

section RestaurantApp

attribute [local semireducible] Rat.mul Rat.add Rat.sub Rat.inv

/-- A row of the `tables` table (`model Table` in `prisma/schema.prisma`). -/
structure TableRec where
  id : String
  name : String
  desc : Option String
deriving DecidableEq

/-- A row of the `menus` table: the fields read by the two handlers
(`model Menu`: `price Int`, `stock Int`, `is_available Boolean`). -/
structure MenuItem where
  id : String
  name : String
  price : ℚ
  stock : ℚ
  is_available : Bool
deriving DecidableEq

/-- One cart line of a checkout request body
(`items: [{ id, quantity, customization? }]`). -/
structure CartLine where
  id : String
  quantity : ℚ
  customization : Option String
deriving DecidableEq

/-- A committed `OrderItem` row (`orderItemsData` entry in the checkout
handler: `menu_id`, `price`, `quantity`, `subtotal`, `customization`). -/
structure OrderItemRec where
  menu_id : String
  price : ℚ
  quantity : ℚ
  subtotal : ℚ
  customization : Option String
deriving DecidableEq

/-- A committed `Order` row with its order items (store-generated id and
timestamps omitted). -/
structure OrderRec where
  customer_id : String
  table_id : String
  order_status : String
  payment_status : String
  total_amount : ℚ
  order_items : List OrderItemRec
deriving DecidableEq

/-- A row of the `logs` table: `user_id`, `action`, `message`. -/
structure LogEntry where
  user_id : String
  action : String
  message : String
deriving DecidableEq

/-- The relational store as seen by the two handlers. -/
structure DB where
  tables : List TableRec
  menus : List MenuItem
  orders : List OrderRec
  logs : List LogEntry
deriving DecidableEq

/-! ## Stock adjuster (`PUT /api/menu/[id]/stock`) -/

/-- The three recognised stock actions (`z.enum(["add", "set", "subtract"])`). -/
inductive StockAction where
  | add
  | subtract
  | set
deriving DecidableEq

/-- Raw request body of a stock update before validation
(`{ action?, quantity?, reason? }` as sent by the client). -/
structure StockBody where
  action : Option String
  quantity : Option ℚ
  reason : Option String
deriving DecidableEq

/-- One entry of a Zod validation-error detail list (`error.errors`):
the offending field and a message. -/
structure FieldIssue where
  field : String
  message : String
deriving DecidableEq

/-- The structured `stock_change` object of a successful stock update
response: `{ previous_stock, new_stock, change, action }`. -/
structure StockChange where
  previous_stock : ℚ
  new_stock : ℚ
  change : ℚ
  action : StockAction
deriving DecidableEq

/-- Decoding of the `action` field by `z.enum(["add", "set", "subtract"])`. -/
def parseAction : Option String → Option StockAction
  | some "add" => some .add
  | some "set" => some .set
  | some "subtract" => some .subtract
  | _ => none

/-- Zod issues contributed by the `action` field of `stockUpdateSchema`. -/
def actionIssues (b : StockBody) : List FieldIssue :=
  if (parseAction b.action).isSome then []
  else [⟨"action", "Action is required (add, set, or subtract)"⟩]

/-- Zod issues contributed by the `quantity` field of `stockUpdateSchema`
(`z.coerce.number().int().min(0, "Quantity must be 0 or greater")`). -/
def quantityIssues (b : StockBody) : List FieldIssue :=
  match b.quantity with
  | none => [⟨"quantity", "Expected number, received nan"⟩]
  | some q =>
    (if q.den = 1 then [] else [⟨"quantity", "Expected integer, received float"⟩]) ++
    (if 0 ≤ q then [] else [⟨"quantity", "Quantity must be 0 or greater"⟩])

/-- `stockUpdateSchema.parse(body)`: succeeds with the typed
`(action, quantity, reason)` triple, or throws a `ZodError` carrying the
per-field issue list. -/
def parseStockBody (b : StockBody) :
    Except (List FieldIssue) (StockAction × ℚ × Option String) :=
  match parseAction b.action, b.quantity with
  | some a, some q =>
    if q.den = 1 ∧ 0 ≤ q then .ok (a, q, b.reason)
    else .error (actionIssues b ++ quantityIssues b)
  | _, _ => .error (actionIssues b ++ quantityIssues b)

/-- The `switch (action)` computing `(newStock, stockChange)` from the
current stock and the validated quantity:
`add`: `(stock + q, q)`;
`subtract`: `(Math.max(0, stock - q), -Math.min(q, stock))`;
`set`: `(q, q - stock)`. -/
def applyStockAction : StockAction → ℚ → ℚ → ℚ × ℚ
  | .add, stock, q => (stock + q, q)
  | .subtract, stock, q => (max 0 (stock - q), -(min q stock))
  | .set, stock, q => (q, q - stock)

/-- The lowercase action string interpolated into the audit log message. -/
def actionStr : StockAction → String
  | .add => "add"
  | .subtract => "subtract"
  | .set => "set"

/-- The past-tense verb of the success message
(`action === "add" ? "Added" : action === "subtract" ? "Subtracted" : "Set"`). -/
def actionWord : StockAction → String
  | .add => "Added"
  | .subtract => "Subtracted"
  | .set => "Set"

/-- The human-readable success message: note that it interpolates the
**requested** `quantity`, not the applied delta. -/
def stockSuccessMessage (a : StockAction) (q : ℚ) : String :=
  "Stock updated successfully. " ++ actionWord a ++ " " ++ toString q ++ " items."

/-- The `stock_updated` audit log message written inside the transaction. -/
def stockLogMessage (a : StockAction) (name : String) (change prev new : ℚ)
    (reason : Option String) : String :=
  "Stock " ++ actionStr a ++ " for \"" ++ name ++ "\": " ++
    (if 0 < change then "+" else "") ++ toString change ++
    " (" ++ toString prev ++ " → " ++ toString new ++ ")" ++
    (match reason with
     | some r => if r = "" then "" else " - Reason: " ++ r
     | none => "")

/-- The `stock_error` log entry written by the catch block of the stock
handler (the dynamic part of its message is the thrown error's text). -/
def stockErrorLog (uid id : String) : LogEntry :=
  ⟨uid, "stock_error", "Stock update failed for menu item " ++ id⟩

/-- Responses of the stock handler, one constructor per `NextResponse.json`
exit of `PUT`. -/
inductive StockResponse where
  | authRequired
  | validationFailed (details : List FieldIssue)
  | notFound
  | serverError
  | success (message : String) (menu_item : MenuItem) (stock_change : StockChange)
deriving DecidableEq

/-- HTTP status attached to each stock handler response. -/
def StockResponse.status : StockResponse → Nat
  | .authRequired => 401
  | .validationFailed _ => 400
  | .notFound => 404
  | .serverError => 500
  | .success _ _ _ => 200

/-- The `PUT /api/menu/[id]/stock` handler.  `userId` is the authenticated
session user (`none` models a missing session).  Returns the response and
the store after the request.  The Zod failure path goes through the catch
block, which appends a best-effort `stock_error` log entry before replying
400; the not-found path replies 404 without touching the store. -/
def stockPUT (db : DB) (userId : Option String) (id : String) (body : StockBody) :
    StockResponse × DB :=
  match userId with
  | none => (.authRequired, db)
  | some uid =>
    match parseStockBody body with
    | .error issues =>
      (.validationFailed issues, { db with logs := db.logs ++ [stockErrorLog uid id] })
    | .ok (action, quantity, reason) =>
      match db.menus.find? (fun m => m.id == id) with
      | none => (.notFound, db)
      | some menuItem =>
        let newStock := (applyStockAction action menuItem.stock quantity).1
        let stockChange := (applyStockAction action menuItem.stock quantity).2
        let updated := { menuItem with stock := newStock }
        let menus' := db.menus.map fun m =>
          if m.id == id then { m with stock := newStock } else m
        let logEntry : LogEntry :=
          ⟨uid, "stock_updated",
            stockLogMessage action menuItem.name stockChange menuItem.stock newStock reason⟩
        (.success (stockSuccessMessage action quantity) updated
           ⟨menuItem.stock, newStock, stockChange, action⟩,
         { db with menus := menus', logs := db.logs ++ [logEntry] })

/-! ## Checkout transactor (`POST` checkout route) -/

/-- The per-item record of the `stock_errors` detail list of the
insufficient-stock response. -/
structure StockErr where
  menu_id : String
  menu_name : String
  requested : ℚ
  available : ℚ
deriving DecidableEq

/-- The line-validation filter of the checkout handler:
`!item.id || typeof item.id !== "string" || !item.quantity || item.quantity <= 0`.
For a string id, `!item.id` holds exactly on `""`; for a number quantity,
`!item.quantity || item.quantity <= 0` holds exactly on `quantity ≤ 0`.
Note the filter does **not** test integrality of the quantity. -/
def invalidLines (items : List CartLine) : List CartLine :=
  items.filter fun it => it.id = "" ∨ it.quantity ≤ 0

/-- `menuIds = items.map(i => i.id).filter(Boolean)`. -/
def menuIdsOf (items : List CartLine) : List String :=
  (items.map (·.id)).filter fun id => ¬id = ""

/-- `prisma.menu.findMany({ where: { id: { in: menuIds }, is_available: true } })`:
one row per stored menu item whose id occurs in `menuIds` and which is
available.  Each stored row is returned at most once even when its id is
repeated in `menuIds`. -/
def availableMenus (db : DB) (menuIds : List String) : List MenuItem :=
  db.menus.filter fun m => menuIds.contains m.id ∧ m.is_available

/-- `missingIds = menuIds.filter(id => !foundIds.includes(id))`. -/
def missingIdsFor (menuItems : List MenuItem) (menuIds : List String) : List String :=
  menuIds.filter fun id => ¬(menuItems.map (·.id)).contains id

/-- The stock-availability loop: for each cart line whose menu item is found,
an error record is collected when `menuItem.stock < item.quantity`. -/
def stockErrorsFor (menuItems : List MenuItem) (items : List CartLine) : List StockErr :=
  items.filterMap fun it =>
    match menuItems.find? (fun m => m.id == it.id) with
    | some m =>
      if m.stock < it.quantity then some ⟨it.id, m.name, it.quantity, m.stock⟩ else none
    | none => none

/-- `items.map(...)` building `orderItemsData`: each line is paired with the
menu row found in the validation-time snapshot `menuItems`, its price is the
snapshot price, and `subtotal = price * quantity`.  The two `throw` branches
of the source (`menu item not found`, `invalid quantity`) become `.error`,
which aborts the transaction. -/
def computePlan (menuItems : List MenuItem) : List CartLine → Except String (List OrderItemRec)
  | [] => .ok []
  | it :: rest =>
    match menuItems.find? (fun m => m.id == it.id) with
    | none => .error ("Menu item " ++ it.id ++ " not found")
    | some m =>
      if it.quantity ≤ 0 then .error ("Invalid quantity for item " ++ it.id)
      else
        match computePlan menuItems rest with
        | .error e => .error e
        | .ok plan =>
          .ok ({ menu_id := it.id, price := m.price, quantity := it.quantity,
                 subtotal := m.price * it.quantity,
                 customization := it.customization } :: plan)

/-- `totalAmount`, accumulated as the sum of the subtotals of
`orderItemsData`. -/
def planTotal (plan : List OrderItemRec) : ℚ :=
  (plan.map (·.subtotal)).sum

/-- The Prisma client rejects non-integer values written to `Int` columns
(`prisma/schema.prisma`: `OrderItem.price/quantity/subtotal`,
`Order.total_amount` and the stock decrement amount are all `Int`).  Such a
rejection throws inside the transaction, so nothing is committed and the
catch block answers 500.  This predicate is the condition under which the
transaction's writes are all valid. -/
def prismaIntOk (plan : List OrderItemRec) (items : List CartLine) : Bool :=
  plan.all (fun oi => oi.price.den == 1 && oi.quantity.den == 1 && oi.subtotal.den == 1) &&
    (planTotal plan).den == 1 && items.all (fun it => it.quantity.den == 1)

/-- The `Order` row created by `tx.order.create` (store-generated id and
timestamps omitted; `order_items` are created from `orderItemsData`
exactly as computed at validation time). -/
def builtOrder (uid tableId : String) (plan : List OrderItemRec) : OrderRec :=
  { customer_id := uid, table_id := tableId, order_status := "pending",
    payment_status := "pending", total_amount := planTotal plan, order_items := plan }

/-- The stock-decrement loop of the transaction: for each cart line,
`tx.menu.update({ where: { id: item.id }, data: { stock: { decrement:
item.quantity } } })`.  Prisma's `decrement` is plain subtraction. -/
def decrementStocks (items : List CartLine) (menus : List MenuItem) : List MenuItem :=
  items.foldl
    (fun ms it => ms.map fun m =>
      if m.id == it.id then { m with stock := m.stock - it.quantity } else m)
    menus

/-- The `order_created` log entry written inside the transaction. -/
def orderCreatedLog (uid tableName : String) (itemCount : Nat) (total : ℚ) : LogEntry :=
  ⟨uid, "order_created",
    "Order created for table " ++ tableName ++ " with " ++ toString itemCount ++
      " items. Total: " ++ toString total⟩

/-- The per-line `stock_updated` log entries written inside the transaction
(one per cart line whose menu item is found in the snapshot). -/
def checkoutStockLogs (uid : String) (menuItems : List MenuItem)
    (items : List CartLine) : List LogEntry :=
  items.filterMap fun it =>
    (menuItems.find? (fun m => m.id == it.id)).map fun m =>
      ⟨uid, "stock_updated", "Stock reduced for " ++ m.name ++ ": -" ++ toString it.quantity⟩

/-- The `order_error` log entry written by the catch block of the checkout
handler when the transaction throws. -/
def orderErrorLog (uid msg : String) : LogEntry :=
  ⟨uid, "order_error", "Order creation failed: " ++ msg⟩

/-- The atomic apply step (`prisma.$transaction`): inserts the order with its
items, decrements each line's menu stock, and appends the audit log entries.
The committed `OrderRec` is built from the validation-time `plan` only — the
store passed here is never consulted for prices. -/
def applyCheckout (uid tableId tableName : String) (plan : List OrderItemRec)
    (items : List CartLine) (menuItems : List MenuItem) (db : DB) : OrderRec × DB :=
  let order := builtOrder uid tableId plan
  (order,
   { db with
     orders := db.orders ++ [order],
     menus := decrementStocks items db.menus,
     logs := db.logs ++
       orderCreatedLog uid tableName items.length (planTotal plan) ::
         checkoutStockLogs uid menuItems items })

/-- Responses of the checkout handler, one constructor per `NextResponse.json`
exit of `POST`. -/
inductive CheckoutResult where
  | authRequired
  | missingFields
  | invalidTable
  | invalidItems (invalid_items : List CartLine)
  | noValidMenuItems
  | missingItems (missing_items : List String)
  | insufficientStock (stock_errors : List StockErr)
  | serverError
  | created (order : OrderRec)
deriving DecidableEq

/-- HTTP status attached to each checkout response. -/
def CheckoutResult.status : CheckoutResult → Nat
  | .authRequired => 401
  | .missingFields => 400
  | .invalidTable => 400
  | .invalidItems _ => 400
  | .noValidMenuItems => 400
  | .missingItems _ => 400
  | .insufficientStock _ => 400
  | .serverError => 500
  | .created _ => 201

/-- The checkout handler from the menu-id extraction onward (after the
table and line-shape validations have passed). -/
def checkoutCore (db : DB) (uid tableId tableName : String)
    (items : List CartLine) : CheckoutResult × DB :=
  let menuIds := menuIdsOf items
  if menuIds = [] then (.noValidMenuItems, db)
  else
    let menuItems := availableMenus db menuIds
    if ¬menuItems.length = menuIds.length then
      (.missingItems (missingIdsFor menuItems menuIds), db)
    else
      let errs := stockErrorsFor menuItems items
      if ¬errs = [] then (.insufficientStock errs, db)
      else
        match computePlan menuItems items with
        | .error msg => (.serverError, { db with logs := db.logs ++ [orderErrorLog uid msg] })
        | .ok plan =>
          if prismaIntOk plan items then
            let r := applyCheckout uid tableId tableName plan items menuItems db
            (.created r.1, r.2)
          else
            (.serverError,
             { db with logs := db.logs ++ [orderErrorLog uid "invalid Int column value"] })

/-- The checkout `POST` handler.  `userId` is the authenticated session user.
Validation steps in source order: session, required fields, table existence,
line shape, menu existence/availability, stock sufficiency; then the atomic
apply.  Every validation failure leaves the store untouched; a transaction
failure leaves only a best-effort `order_error` log entry. -/
def checkout (db : DB) (userId : Option String) (tableId : String)
    (items : List CartLine) : CheckoutResult × DB :=
  match userId with
  | none => (.authRequired, db)
  | some uid =>
    if tableId = "" ∨ items = [] then (.missingFields, db)
    else
      match db.tables.find? (fun t => t.id == tableId) with
      | none => (.invalidTable, db)
      | some table =>
        if ¬invalidLines items = [] then (.invalidItems (invalidLines items), db)
        else checkoutCore db uid tableId table.name items

/-! ## Sample store used by witnesses and counterexamples -/

/-- A concrete store: one table, two available menu items
(mirrors the spec's example scenarios A and B). -/
def sampleDB : DB :=
  { tables := [⟨"t1", "Table 1", none⟩],
    menus := [⟨"m1", "Burger", 25000, 10, true⟩, ⟨"m2", "Soda", 8000, 2, true⟩],
    orders := [],
    logs := [] }

/-! ## Helper lemmas -/

/-- Parsing a well-formed `subtract`/`set`/`add` body succeeds. -/
lemma parseStockBody_ok_of_valid {s : String} {a : StockAction} {q : ℚ}
    (hs : parseAction (some s) = some a) (hq : q.den = 1) (hq0 : 0 ≤ q) :
    parseStockBody ⟨some s, some q, none⟩ = .ok (a, q, none) := by
  unfold parseStockBody
  rw [hs]
  exact if_pos ⟨hq, hq0⟩

/-- Inversion: a successful parse certifies the Zod constraints on the
quantity. -/
lemma parseStockBody_ok_inv {b : StockBody} {a : StockAction} {q : ℚ}
    {r : Option String} (h : parseStockBody b = .ok (a, q, r)) :
    q.den = 1 ∧ 0 ≤ q := by
  unfold parseStockBody at h
  split at h
  · split at h
    · rename_i hc
      simp only [Except.ok.injEq, Prod.mk.injEq] at h
      obtain ⟨-, hq', -⟩ := h
      subst hq'
      exact hc
    · simp at h
  · simp at h

/-- A menu item updated by the stock write and matching the id carries the
new stock value. -/
lemma mem_stock_map {menus : List MenuItem} {id : String} {ns : ℚ} {mm : MenuItem}
    (h : mm ∈ menus.map fun m => if m.id == id then { m with stock := ns } else m)
    (hid : mm.id = id) : mm.stock = ns := by
  obtain ⟨m₀, _, rfl⟩ := List.mem_map.mp h
  by_cases hc : (m₀.id == id) = true
  · simp only [if_pos hc]
  · rw [if_neg hc] at hid ⊢
    exact absurd (beq_iff_eq.mpr hid) hc

/-- One `subtract` run on a present menu item: response and committed stock. -/
lemma stockPUT_subtract_run (db : DB) (uid id : String) (q : ℚ) (m : MenuItem)
    (hq : q.den = 1) (hq0 : 0 ≤ q)
    (hFind : db.menus.find? (fun mm => mm.id == id) = some m) :
    (stockPUT db (some uid) id ⟨some "subtract", some q, none⟩).1 =
      .success (stockSuccessMessage .subtract q) { m with stock := max 0 (m.stock - q) }
        ⟨m.stock, max 0 (m.stock - q), -(min q m.stock), .subtract⟩
    ∧ ∀ mm ∈ (stockPUT db (some uid) id ⟨some "subtract", some q, none⟩).2.menus,
        mm.id = id → mm.stock = max 0 (m.stock - q) := by
  have hparse := parseStockBody_ok_of_valid (s := "subtract") (a := .subtract) rfl hq hq0
  refine ⟨?_, ?_⟩
  · simp [stockPUT, hparse, hFind, applyStockAction]
  · intro mm hmm hid
    simp only [stockPUT, hparse, hFind] at hmm
    exact mem_stock_map hmm hid

/-- C4: For every stock adjustment with action `subtract` on an existing menu
item with current stock `s` and requested quantity `q ≥ 0`, the response and
the committed stock value are `max 0 (s − q)` and the recorded delta is
`−min(q, s)`; in particular when `q > s` the new stock is `0` and the delta
is `−s`, not `−q`. -/
theorem stock_subtract_clamps (db : DB) (uid id : String) (q : ℚ) (m : MenuItem)
    (hq : q.den = 1) (hq0 : 0 ≤ q)
    (hFind : db.menus.find? (fun mm => mm.id == id) = some m) :
    (stockPUT db (some uid) id ⟨some "subtract", some q, none⟩).1 =
      .success (stockSuccessMessage .subtract q) { m with stock := max 0 (m.stock - q) }
        ⟨m.stock, max 0 (m.stock - q), -(min q m.stock), .subtract⟩
    ∧ (∀ mm ∈ (stockPUT db (some uid) id ⟨some "subtract", some q, none⟩).2.menus,
        mm.id = id → mm.stock = max 0 (m.stock - q))
    ∧ (m.stock < q → max 0 (m.stock - q) = 0 ∧ -(min q m.stock) = -m.stock) := by
  obtain ⟨h1, h2⟩ := stockPUT_subtract_run db uid id q m hq hq0 hFind
  refine ⟨h1, h2, ?_⟩
  intro hlt
  constructor
  · exact max_eq_left (sub_nonpos.mpr hlt.le)
  · rw [min_eq_right hlt.le]

/-- One `set` run on a present menu item: response and committed stock. -/
lemma stockPUT_set_run (db : DB) (uid id : String) (q : ℚ) (m : MenuItem)
    (hq : q.den = 1) (hq0 : 0 ≤ q)
    (hFind : db.menus.find? (fun mm => mm.id == id) = some m) :
    (stockPUT db (some uid) id ⟨some "set", some q, none⟩).1 =
      .success (stockSuccessMessage .set q) { m with stock := q }
        ⟨m.stock, q, q - m.stock, .set⟩
    ∧ ∀ mm ∈ (stockPUT db (some uid) id ⟨some "set", some q, none⟩).2.menus,
        mm.id = id → mm.stock = q := by
  have hparse := parseStockBody_ok_of_valid (s := "set") (a := .set) rfl hq hq0
  refine ⟨?_, ?_⟩
  · simp [stockPUT, hparse, hFind, applyStockAction]
  · intro mm hmm hid
    simp only [stockPUT, hparse, hFind] at hmm
    exact mem_stock_map hmm hid

/-- C5: For every stock adjustment with action `set` on an existing menu item
with current stock `s` and requested quantity `q ≥ 0`, the committed new
stock is exactly `q` regardless of `s`, and the recorded delta is `q − s`. -/
theorem stock_set_exact (db : DB) (uid id : String) (q : ℚ) (m : MenuItem)
    (hq : q.den = 1) (hq0 : 0 ≤ q)
    (hFind : db.menus.find? (fun mm => mm.id == id) = some m) :
    (stockPUT db (some uid) id ⟨some "set", some q, none⟩).1 =
      .success (stockSuccessMessage .set q) { m with stock := q }
        ⟨m.stock, q, q - m.stock, .set⟩
    ∧ (∀ mm ∈ (stockPUT db (some uid) id ⟨some "set", some q, none⟩).2.menus,
        mm.id = id → mm.stock = q) :=
  stockPUT_set_run db uid id q m hq hq0 hFind

/-- C10: when a successful `subtract` requests more than the current stock,
the human-readable message interpolates the requested quantity while the
structured `stock_change.change` field carries the clamped delta
`−currentStock`; since `currentStock ≠ quantity` the two magnitudes
disagree. -/
theorem stock_subtract_message_vs_change (db : DB) (uid id : String) (q : ℚ)
    (m : MenuItem) (hq : q.den = 1) (hq0 : 0 ≤ q)
    (hFind : db.menus.find? (fun mm => mm.id == id) = some m)
    (hlt : m.stock < q) :
    (stockPUT db (some uid) id ⟨some "subtract", some q, none⟩).1 =
      .success ("Stock updated successfully. Subtracted " ++ toString q ++ " items.")
        { m with stock := 0 } ⟨m.stock, 0, -m.stock, .subtract⟩
    ∧ ¬m.stock = q := by
  obtain ⟨h1, _⟩ := stockPUT_subtract_run db uid id q m hq hq0 hFind
  have hzero : max 0 (m.stock - q) = 0 := max_eq_left (sub_nonpos.mpr hlt.le)
  have hdelta : -(min q m.stock) = -m.stock := by rw [min_eq_right hlt.le]
  refine ⟨?_, ne_of_lt hlt⟩
  rw [h1, hzero, hdelta]
  rfl

/-- `find?` by id commutes with the stock-update map (ids are preserved). -/
lemma find?_stock_map (menus : List MenuItem) (id : String) (ns : ℚ) :
    ((menus.map fun m => if m.id == id then { m with stock := ns } else m).find?
        (fun m => m.id == id)) =
      (menus.find? (fun m => m.id == id)).map
        (fun m => if m.id == id then { m with stock := ns } else m) := by
  induction menus with
  | nil => rfl
  | cons a as ih =>
    have hid : ((if a.id == id then { a with stock := ns } else a).id == id) =
        (a.id == id) := by
      by_cases h : (a.id == id) = true
      · rw [if_pos h]
      · rw [if_neg h]
    by_cases h : (a.id == id) = true
    · rw [List.map_cons,
        List.find?_cons_of_pos (p := fun (m : MenuItem) => m.id == id) _ (hid.trans h),
        List.find?_cons_of_pos (p := fun (m : MenuItem) => m.id == id) _ h,
        Option.map_some']
    · rw [List.map_cons,
        List.find?_cons_of_neg (p := fun (m : MenuItem) => m.id == id) _
          (fun hh => h (hid.symm.trans hh)),
        List.find?_cons_of_neg (p := fun (m : MenuItem) => m.id == id) _ h, ih]

/-- C8: re-issuing an identical `set` request twice is idempotent on the
committed stock: the first call commits stock `q`, the second call still
commits stock `q` and reports delta `0` in its `stock_change`. -/
theorem stock_set_idempotent (db : DB) (uid id : String) (q : ℚ) (m : MenuItem)
    (hq : q.den = 1) (hq0 : 0 ≤ q)
    (hFind : db.menus.find? (fun mm => mm.id == id) = some m) :
    (∀ mm ∈ (stockPUT db (some uid) id ⟨some "set", some q, none⟩).2.menus,
        mm.id = id → mm.stock = q)
    ∧ (stockPUT (stockPUT db (some uid) id ⟨some "set", some q, none⟩).2
          (some uid) id ⟨some "set", some q, none⟩).1 =
        .success (stockSuccessMessage .set q) { m with stock := q } ⟨q, q, 0, .set⟩
    ∧ (∀ mm ∈ (stockPUT (stockPUT db (some uid) id ⟨some "set", some q, none⟩).2
          (some uid) id ⟨some "set", some q, none⟩).2.menus,
        mm.id = id → mm.stock = q) := by
  have hparse := parseStockBody_ok_of_valid (s := "set") (a := .set) rfl hq hq0
  have hbeq := List.find?_some hFind
  have hFind₂ :
      (stockPUT db (some uid) id ⟨some "set", some q, none⟩).2.menus.find?
          (fun mm => mm.id == id) = some { m with stock := q } := by
    simp only [stockPUT, hparse, hFind, applyStockAction]
    rw [find?_stock_map, hFind, Option.map_some', if_pos hbeq]
  refine ⟨?_, ?_, ?_⟩
  · intro mm hmm hid
    simp only [stockPUT, hparse, hFind] at hmm
    exact mem_stock_map hmm hid
  · have h := (stockPUT_set_run ((stockPUT db (some uid) id
      ⟨some "set", some q, none⟩).2) uid id q { m with stock := q } hq hq0 hFind₂).1
    rw [h]
    simp [sub_self]
  · intro mm hmm hid
    have h2 := (stockPUT_set_run ((stockPUT db (some uid) id
      ⟨some "set", some q, none⟩).2) uid id q { m with stock := q } hq hq0 hFind₂).2
    exact h2 mm hmm hid

/-- A malformed body makes the Zod parse fail with the accumulated
per-field issue list. -/
lemma parseStockBody_error_of_bad {b : StockBody}
    (hbad : parseAction b.action = none ∨ b.quantity = none ∨
      ∃ q, b.quantity = some q ∧ (¬q.den = 1 ∨ q < 0)) :
    parseStockBody b = .error (actionIssues b ++ quantityIssues b) := by
  unfold parseStockBody
  cases hpa : parseAction b.action <;> cases hbq : b.quantity
  · rfl
  · rfl
  · rfl
  · rename_i a' q'
    refine if_neg ?_
    rintro ⟨h1, h2⟩
    rcases hbad with hbad | hbad | ⟨q'', hq'', hbad⟩
    · rw [hpa] at hbad; simp at hbad
    · rw [hbq] at hbad; simp at hbad
    · rw [hbq] at hq''
      obtain rfl := Option.some.inj hq''
      rcases hbad with hbad | hbad
      · exact hbad h1
      · exact absurd h2 (not_le.mpr hbad)

/-- The issue list of a failing parse is nonempty and names only the
`action` and `quantity` fields. -/
lemma issues_nonempty_of_bad {b : StockBody}
    (hbad : parseAction b.action = none ∨ b.quantity = none ∨
      ∃ q, b.quantity = some q ∧ (¬q.den = 1 ∨ q < 0)) :
    ¬actionIssues b ++ quantityIssues b = []
    ∧ ∀ i ∈ actionIssues b ++ quantityIssues b,
        i.field = "action" ∨ i.field = "quantity" := by
  constructor
  · intro hnil
    rw [List.append_eq_nil] at hnil
    obtain ⟨ha, hq⟩ := hnil
    rcases hbad with hbad | hbad | ⟨q, hq', hbad⟩
    · unfold actionIssues at ha
      rw [hbad] at ha
      simp at ha
    · unfold quantityIssues at hq
      rw [hbad] at hq
      simp at hq
    · unfold quantityIssues at hq
      rw [hq'] at hq
      rw [List.append_eq_nil] at hq
      rcases hbad with hbad | hbad
      · rw [if_neg hbad] at hq
        simp at hq
      · rw [if_neg (not_le.mpr hbad)] at hq
        simp at hq
  · intro i hi
    rcases List.mem_append.mp hi with hi | hi
    · left
      unfold actionIssues at hi
      split at hi
      · cases hi
      · rw [List.mem_singleton] at hi
        rw [hi]
    · right
      unfold quantityIssues at hi
      split at hi
      · rw [List.mem_singleton] at hi
        rw [hi]
      · rcases List.mem_append.mp hi with hi | hi
        · split at hi
          · cases hi
          · rw [List.mem_singleton] at hi
            rw [hi]
        · split at hi
          · cases hi
          · rw [List.mem_singleton] at hi
            rw [hi]

/-- C7: a stock update either hits `NotFound` (404) when the menu item id
does not exist — leaving the store untouched — or `ValidationFailed` (400)
when the quantity is missing, non-integer or negative, or the action is not
one of the three recognised values — with a nonempty per-field issue list,
no stock change and no `stock_updated` log entry (only the catch block's
best-effort `stock_error` entry). -/
theorem stockPUT_error_paths (db : DB) (uid id : String) (body : StockBody) :
    ((∃ v, parseStockBody body = .ok v) →
      db.menus.find? (fun m => m.id == id) = none →
      stockPUT db (some uid) id body = (.notFound, db) ∧
        StockResponse.status StockResponse.notFound = 404)
    ∧ ((parseAction body.action = none ∨ body.quantity = none ∨
        ∃ q, body.quantity = some q ∧ (¬q.den = 1 ∨ q < 0)) →
      ∃ issues, ¬issues = []
        ∧ (∀ i ∈ issues, i.field = "action" ∨ i.field = "quantity")
        ∧ stockPUT db (some uid) id body =
            (.validationFailed issues,
              { db with logs := db.logs ++ [stockErrorLog uid id] })
        ∧ (stockPUT db (some uid) id body).2.menus = db.menus
        ∧ (∀ e ∈ (stockPUT db (some uid) id body).2.logs,
            e ∈ db.logs ∨ e.action = "stock_error")
        ∧ StockResponse.status (.validationFailed issues) = 400) := by
  constructor
  · rintro ⟨v, hv⟩ hnone
    obtain ⟨a, q, r⟩ := v
    refine ⟨?_, rfl⟩
    simp [stockPUT, hv, hnone]
  · intro hbad
    have herr := parseStockBody_error_of_bad hbad
    obtain ⟨hne, hfields⟩ := issues_nonempty_of_bad hbad
    refine ⟨actionIssues body ++ quantityIssues body, hne, hfields, ?_, ?_, ?_, rfl⟩
    · simp [stockPUT, herr]
    · simp [stockPUT, herr]
    · intro e he
      simp only [stockPUT, herr] at he
      rcases List.mem_append.mp he with he | he
      · exact Or.inl he
      · right
        rw [List.mem_singleton] at he
        rw [he]
        rfl

/-- Under a present session, a nonempty table id, a found table and
well-formed lines, `checkout` proceeds to the menu-id stage. -/
lemma checkout_valid_eq (db : DB) (uid tableId : String) (items : List CartLine)
    (tbl : TableRec)
    (hTid : ¬tableId = "") (hNe : ¬items = [])
    (hTbl : db.tables.find? (fun t => t.id == tableId) = some tbl)
    (hLines : invalidLines items = []) :
    checkout db (some uid) tableId items = checkoutCore db uid tableId tbl.name items := by
  simp only [checkout, hTbl, hLines, hTid, hNe, not_false_eq_true, false_or, or_false,
    if_false, not_true_eq_false, ite_false]

/-- When no line is flagged invalid, every line has a nonempty id and a
positive quantity. -/
lemma lines_ok_of_invalid_nil {items : List CartLine}
    (hLines : invalidLines items = []) :
    ∀ it ∈ items, ¬it.id = "" ∧ 0 < it.quantity := by
  intro it hit
  have h := List.filter_eq_nil_iff.mp hLines it hit
  rw [decide_eq_true_iff] at h
  push_neg at h
  exact ⟨h.1, h.2⟩

/-- With well-formed lines the extracted menu-id list is exactly the list of
line ids. -/
lemma menuIdsOf_eq_map {items : List CartLine}
    (hLines : invalidLines items = []) :
    menuIdsOf items = items.map (·.id) := by
  unfold menuIdsOf
  rw [List.filter_eq_self]
  intro id hid
  obtain ⟨it, hit, rfl⟩ := List.mem_map.mp hid
  exact decide_eq_true_iff.mpr (lines_ok_of_invalid_nil hLines it hit).1

/-- With well-formed, nonempty lines the menu-id list is nonempty. -/
lemma menuIdsOf_ne_nil {items : List CartLine}
    (hNe : ¬items = []) (hLines : invalidLines items = []) :
    ¬menuIdsOf items = [] := by
  rw [menuIdsOf_eq_map hLines]
  intro h
  exact hNe (List.map_eq_nil_iff.mp h)

/-- Every over-requested line contributes its record to the `stock_errors`
list. -/
lemma mem_stockErrorsFor {menuItems : List MenuItem} {items : List CartLine}
    {it : CartLine} {m : MenuItem} (hit : it ∈ items)
    (hfind : menuItems.find? (fun mm => mm.id == it.id) = some m)
    (hlt : m.stock < it.quantity) :
    (⟨it.id, m.name, it.quantity, m.stock⟩ : StockErr) ∈ stockErrorsFor menuItems items := by
  unfold stockErrorsFor
  refine List.mem_filterMap.mpr ⟨it, hit, ?_⟩
  rw [hfind]
  exact if_pos hlt

/-- C1: for every checkout request that reaches the stock check (session
present, table found, lines well-formed, all menu ids found among the
available items) and has at least one line whose quantity exceeds the
referenced item's current stock, the handler replies `InsufficientStock`
(HTTP 400) whose `stock_errors` list contains every over-requested item
(with menu id, name, requested and available counts), and the store is
completely unchanged: no order, no stock change, no log entry. -/
theorem checkout_insufficient_stock (db : DB) (uid tableId : String)
    (items : List CartLine) (tbl : TableRec)
    (hTid : ¬tableId = "") (hNe : ¬items = [])
    (hTbl : db.tables.find? (fun t => t.id == tableId) = some tbl)
    (hLines : invalidLines items = [])
    (hLen : (availableMenus db (menuIdsOf items)).length = (menuIdsOf items).length)
    (hOver : ∃ it ∈ items, ∃ m,
      (availableMenus db (menuIdsOf items)).find? (fun mm => mm.id == it.id) = some m ∧
        m.stock < it.quantity) :
    checkout db (some uid) tableId items =
      (.insufficientStock (stockErrorsFor (availableMenus db (menuIdsOf items)) items), db)
    ∧ (∀ it ∈ items, ∀ m,
        (availableMenus db (menuIdsOf items)).find? (fun mm => mm.id == it.id) = some m →
        m.stock < it.quantity →
        (⟨it.id, m.name, it.quantity, m.stock⟩ : StockErr) ∈
          stockErrorsFor (availableMenus db (menuIdsOf items)) items)
    ∧ CheckoutResult.status
        (.insufficientStock (stockErrorsFor (availableMenus db (menuIdsOf items)) items))
        = 400 := by
  obtain ⟨it, hit, m, hfind, hlt⟩ := hOver
  have hmem := mem_stockErrorsFor hit hfind hlt
  have hne : ¬stockErrorsFor (availableMenus db (menuIdsOf items)) items = [] :=
    List.ne_nil_of_mem hmem
  refine ⟨?_, ?_, rfl⟩
  · rw [checkout_valid_eq db uid tableId items tbl hTid hNe hTbl hLines]
    unfold checkoutCore
    rw [if_neg (menuIdsOf_ne_nil hNe hLines), if_neg (by rw [hLen]; simp), if_pos hne]
  · intro it' hit' m' hfind' hlt'
    exact mem_stockErrorsFor hit' hfind' hlt'

/-- Every order item of a successfully computed plan snapshots a menu row of
the validation-time read: the price is that row's price and the subtotal is
snapshot price times line quantity. -/
lemma computePlan_snapshot {menuItems : List MenuItem} :
    ∀ {items : List CartLine} {plan : List OrderItemRec},
      computePlan menuItems items = .ok plan →
      ∀ oi ∈ plan, ∃ m ∈ menuItems,
        m.id = oi.menu_id ∧ oi.price = m.price ∧ 0 < oi.quantity ∧
          oi.subtotal = m.price * oi.quantity := by
  intro items
  induction items with
  | nil =>
    intro plan h oi hoi
    obtain rfl : ([] : List OrderItemRec) = plan := Except.ok.inj h
    cases hoi
  | cons it rest ih =>
    intro plan h oi hoi
    unfold computePlan at h
    split at h
    · cases h
    · rename_i m hfind
      split at h
      · cases h
      · rename_i hq
        split at h
        · cases h
        · rename_i plan' hrest
          obtain rfl := Except.ok.inj h
          rcases hoi with _ | hoi'
          · refine ⟨m, List.mem_of_find?_eq_some hfind, ?_, rfl, ?_, rfl⟩
            · have hb := List.find?_some hfind
              exact beq_iff_eq.mp hb
            · exact lt_of_not_le hq
          · rename_i hoi'
            exact ih hrest oi hoi'

/-- C2: for every checkout request that passes all validation steps, the
committed order's `total_amount` is the sum of its committed order items'
subtotals, every order item's price is the menu price read at validation
time with `subtotal = price × quantity`, and the apply step commits the
validation-time plan unchanged for **any** store state at apply time — a
catalog price change between validation and commit cannot alter the
committed order. -/
theorem checkout_success_snapshot (db : DB) (uid tableId : String)
    (items : List CartLine) (tbl : TableRec) (plan : List OrderItemRec)
    (hTid : ¬tableId = "") (hNe : ¬items = [])
    (hTbl : db.tables.find? (fun t => t.id == tableId) = some tbl)
    (hLines : invalidLines items = [])
    (hLen : (availableMenus db (menuIdsOf items)).length = (menuIdsOf items).length)
    (hErrs : stockErrorsFor (availableMenus db (menuIdsOf items)) items = [])
    (hPlan : computePlan (availableMenus db (menuIdsOf items)) items = .ok plan)
    (hInt : prismaIntOk plan items = true) :
    (checkout db (some uid) tableId items).1 = .created (builtOrder uid tableId plan)
    ∧ (builtOrder uid tableId plan).total_amount =
        ((builtOrder uid tableId plan).order_items.map (·.subtotal)).sum
    ∧ (∀ oi ∈ (builtOrder uid tableId plan).order_items,
        ∃ m ∈ availableMenus db (menuIdsOf items),
          m.id = oi.menu_id ∧ oi.price = m.price ∧ oi.subtotal = m.price * oi.quantity)
    ∧ (∀ db₂ tn, (applyCheckout uid tableId tn plan items
        (availableMenus db (menuIdsOf items)) db₂).1 = builtOrder uid tableId plan) := by
  refine ⟨?_, rfl, ?_, fun db₂ tn => rfl⟩
  · rw [checkout_valid_eq db uid tableId items tbl hTid hNe hTbl hLines]
    unfold checkoutCore
    rw [if_neg (menuIdsOf_ne_nil hNe hLines), if_neg (by rw [hLen]; simp),
      if_neg (by rw [hErrs]; simp), hPlan]
    simp only [hInt, if_true]
    rfl
  · intro oi hoi
    obtain ⟨m, hm, hid, hprice, -, hsub⟩ := computePlan_snapshot hPlan oi hoi
    exact ⟨m, hm, hid, hprice, hsub⟩

lemma contains_iff_mem {l : List String} {a : String} : l.contains a = true ↔ a ∈ l := by
  simp

/-- C6 (amended): for every checkout request with a present session and a
found table that contains a cart line whose id is empty **or whose quantity
is zero or negative** (the filter `!item.id || !item.quantity ||
item.quantity <= 0` does not test integrality), the handler replies with the
malformed-line error (HTTP 400) whose detail lists every offending line, and
nothing is committed. -/
theorem checkout_malformed_lines (db : DB) (uid tableId : String)
    (items : List CartLine) (tbl : TableRec)
    (hTid : ¬tableId = "")
    (hTbl : db.tables.find? (fun t => t.id == tableId) = some tbl)
    (hBad : ∃ it ∈ items, it.id = "" ∨ it.quantity ≤ 0) :
    checkout db (some uid) tableId items = (.invalidItems (invalidLines items), db)
    ∧ (∀ it ∈ items, (it.id = "" ∨ it.quantity ≤ 0) → it ∈ invalidLines items)
    ∧ ¬invalidLines items = []
    ∧ CheckoutResult.status (.invalidItems (invalidLines items)) = 400 := by
  obtain ⟨it, hit, hb⟩ := hBad
  have hmem : it ∈ invalidLines items :=
    List.mem_filter.mpr ⟨hit, decide_eq_true_iff.mpr hb⟩
  have hne : ¬invalidLines items = [] := List.ne_nil_of_mem hmem
  have hNe : ¬items = [] := List.ne_nil_of_mem hit
  refine ⟨?_, ?_, hne, rfl⟩
  · simp only [checkout, hTbl, hTid, hNe, not_false_eq_true, false_or, or_false, if_false]
    rw [if_pos hne]
  · intro it' hit' hb'
    exact List.mem_filter.mpr ⟨hit', decide_eq_true_iff.mpr hb'⟩

/-- C6 (counterexample to the claim as stated): the line
`{id: "m1", quantity: 3/2}` has a quantity that is positive but **not an
integer**, yet the handler does not reply `MalformedLineItem`: the line
passes the filter, validation succeeds, and the request instead dies inside
the transaction (HTTP 500) — and a best-effort `order_error` log entry *is*
committed, contradicting the claim's "no log entry" as well. -/
theorem checkout_malformed_counterexample :
    (0 < (3/2 : ℚ) ∧ ¬(3/2 : ℚ).den = 1)
    ∧ (∀ l, ¬(checkout sampleDB (some "u1") "t1" [⟨"m1", 3/2, none⟩]).1 =
        .invalidItems l)
    ∧ (checkout sampleDB (some "u1") "t1" [⟨"m1", 3/2, none⟩]).1 = .serverError
    ∧ CheckoutResult.status (checkout sampleDB (some "u1") "t1"
        [⟨"m1", 3/2, none⟩]).1 = 500
    ∧ ¬(checkout sampleDB (some "u1") "t1" [⟨"m1", 3/2, none⟩]).2.logs =
        sampleDB.logs := by
  refine ⟨by decide, ?_, by decide, by decide, by decide⟩
  intro l h
  have h2 : (checkout sampleDB (some "u1") "t1" [⟨"m1", 3/2, none⟩]).1 =
      .serverError := by decide
  rw [h2] at h
  cases h

/-- `dedup` strictly shrinks a list with a duplicate. -/
lemma dedup_length_lt {l : List String} (h : ¬l.Nodup) :
    l.dedup.length < l.length := by
  rcases Nat.lt_or_ge l.dedup.length l.length with hlt | hge
  · exact hlt
  · exfalso
    apply h
    have hsub : List.Sublist l.dedup l := List.dedup_sublist l
    have heq : l.dedup = l := hsub.eq_of_length (le_antisymm hsub.length_le hge)
    rw [← heq]
    exact List.nodup_dedup l

/-- The ids of the available-menu read are distinct (the store has unique
menu ids) and drawn from the requested id list. -/
lemma availableMenus_ids_nodup (db : DB) (T : List String)
    (hnd : (db.menus.map (·.id)).Nodup) :
    ((availableMenus db T).map (·.id)).Nodup :=
  List.Nodup.sublist (List.Sublist.map _ (List.filter_sublist db.menus)) hnd

lemma availableMenus_ids_subset (db : DB) (T : List String) :
    ((availableMenus db T).map (·.id)) ⊆ T := by
  intro x hx
  obtain ⟨m, hm, rfl⟩ := List.mem_map.mp hx
  have h := (List.mem_filter.mp hm).2
  rw [decide_eq_true_iff] at h
  exact contains_iff_mem.mp h.1

/-- With a duplicated requested id, the `findMany` read returns strictly
fewer rows than requested ids. -/
lemma availableMenus_length_lt (db : DB) {T : List String}
    (hnd : (db.menus.map (·.id)).Nodup) (hdup : ¬T.Nodup) :
    (availableMenus db T).length < T.length := by
  have h1 := availableMenus_ids_nodup db T hnd
  have h2 : ((availableMenus db T).map (·.id)) ⊆ T.dedup :=
    fun x hx => List.mem_dedup.mpr (availableMenus_ids_subset db T hx)
  have h3 := (List.subperm_of_subset h1 h2).length_le
  rw [List.length_map] at h3
  have h4 := dedup_length_lt hdup
  omega

/-- C9: a checkout whose cart repeats a menu id always fails the
existence/availability check with the `Some menu items are not available or
do not exist` error (HTTP 400) and — when every referenced item exists and
is available — an **empty** `missing_items` list, because the count of
distinct rows found is compared against the non-deduplicated id list;
nothing is committed. -/
theorem checkout_duplicate_ids (db : DB) (uid tableId : String)
    (items : List CartLine) (tbl : TableRec)
    (hnd : (db.menus.map (·.id)).Nodup)
    (hTid : ¬tableId = "")
    (hTbl : db.tables.find? (fun t => t.id == tableId) = some tbl)
    (hLines : invalidLines items = [])
    (hDup : ¬(items.map (·.id)).Nodup)
    (hAvail : ∀ it ∈ items, ∃ m ∈ db.menus, m.id = it.id ∧ m.is_available = true) :
    checkout db (some uid) tableId items = (.missingItems [], db)
    ∧ CheckoutResult.status (.missingItems ([] : List String)) = 400 := by
  have hNe : ¬items = [] := by
    intro h
    rw [h] at hDup
    exact hDup List.nodup_nil
  have hT := menuIdsOf_eq_map hLines
  have hdupT : ¬(menuIdsOf items).Nodup := by rw [hT]; exact hDup
  have hlt := availableMenus_length_lt db hnd hdupT
  have hmiss : missingIdsFor (availableMenus db (menuIdsOf items)) (menuIdsOf items)
      = [] := by
    unfold missingIdsFor
    rw [List.filter_eq_nil_iff]
    intro id hid
    rw [decide_eq_true_iff, not_not]
    rw [hT] at hid
    obtain ⟨it, hit, rfl⟩ := List.mem_map.mp hid
    obtain ⟨m, hm, hmid, hav⟩ := hAvail it hit
    have hmem : m ∈ availableMenus db (menuIdsOf items) := by
      refine List.mem_filter.mpr ⟨hm, decide_eq_true_iff.mpr ⟨?_, hav⟩⟩
      rw [hmid, hT]
      exact contains_iff_mem.mpr (List.mem_map.mpr ⟨it, hit, rfl⟩)
    rw [← hmid]
    exact contains_iff_mem.mpr (List.mem_map.mpr ⟨m, hmem, rfl⟩)
  refine ⟨?_, rfl⟩
  rw [checkout_valid_eq db uid tableId items tbl hTid hNe hTbl hLines]
  unfold checkoutCore
  rw [if_neg (menuIdsOf_ne_nil hNe hLines), if_pos (by exact Nat.ne_of_lt hlt), hmiss]

/-- The new stock computed by the adjuster is never negative when the
current stock and the quantity are non-negative (the `subtract` arm is
clamped by `Math.max(0, ...)`). -/
lemma applyStockAction_fst_nonneg (a : StockAction) {s q : ℚ} (hs : 0 ≤ s)
    (hq : 0 ≤ q) : 0 ≤ (applyStockAction a s q).1 := by
  cases a
  · exact add_nonneg hs hq
  · exact le_max_left 0 _
  · exact hq

/-- Any single stock-adjustment request preserves non-negativity of all
stored stocks. -/
lemma stockPUT_menus_nonneg (db : DB) (userId : Option String) (id : String)
    (body : StockBody) (hpos : ∀ m ∈ db.menus, 0 ≤ m.stock) :
    ∀ m ∈ (stockPUT db userId id body).2.menus, 0 ≤ m.stock := by
  intro m hm
  cases userId with
  | none => exact hpos m hm
  | some uid =>
    cases hp : parseStockBody body with
    | error issues =>
      simp only [stockPUT, hp] at hm
      exact hpos m hm
    | ok v =>
      obtain ⟨a, q, r⟩ := v
      obtain ⟨hden, hq0⟩ := parseStockBody_ok_inv hp
      cases hf : db.menus.find? (fun mm => mm.id == id) with
      | none =>
        simp only [stockPUT, hp, hf] at hm
        exact hpos m hm
      | some mi =>
        simp only [stockPUT, hp, hf] at hm
        obtain ⟨m₀, hm₀, rfl⟩ := List.mem_map.mp hm
        by_cases hc : (m₀.id == id) = true
        · rw [if_pos hc]
          exact applyStockAction_fst_nonneg a
            (hpos mi (List.mem_of_find?_eq_some hf)) hq0
        · rw [if_neg hc]
          exact hpos m₀ hm₀

/-- The decrement loop keeps all stocks non-negative provided each line's
quantity is bounded by the stock of every row carrying its id and no id is
decremented twice. -/
lemma decrementStocks_nonneg (items : List CartLine) :
    ∀ menus : List MenuItem,
      (∀ m ∈ menus, 0 ≤ m.stock) →
      (∀ it ∈ items, ∀ m ∈ menus, m.id = it.id → it.quantity ≤ m.stock) →
      (items.map (·.id)).Nodup →
      ∀ m ∈ decrementStocks items menus, 0 ≤ m.stock := by
  induction items with
  | nil =>
    intro menus hpos _ _ m hm
    exact hpos m hm
  | cons it rest ih =>
    intro menus hpos hbound hnd m hm
    have hstep : decrementStocks (it :: rest) menus =
        decrementStocks rest (menus.map fun mm =>
          if mm.id == it.id then { mm with stock := mm.stock - it.quantity }
          else mm) := rfl
    rw [hstep] at hm
    have hnd' : (rest.map (·.id)).Nodup := (List.nodup_cons.mp hnd).2
    have hiddup : it.id ∉ rest.map (·.id) := (List.nodup_cons.mp hnd).1
    refine ih _ ?_ ?_ hnd' m hm
    · intro mm hmm
      obtain ⟨m₀, hm₀, rfl⟩ := List.mem_map.mp hmm
      by_cases hc : (m₀.id == it.id) = true
      · rw [if_pos hc]
        exact sub_nonneg.mpr
          (hbound it (List.mem_cons_self it rest) m₀ hm₀ (beq_iff_eq.mp hc))
      · rw [if_neg hc]
        exact hpos m₀ hm₀
    · intro it' hit' mm hmm hid
      obtain ⟨m₀, hm₀, rfl⟩ := List.mem_map.mp hmm
      by_cases hc : (m₀.id == it.id) = true
      · exfalso
        have h1 : m₀.id = it.id := beq_iff_eq.mp hc
        have h2 : (if (m₀.id == it.id) = true then
            { m₀ with stock := m₀.stock - it.quantity } else m₀).id = m₀.id := by
          rw [if_pos hc]
        rw [h2] at hid
        apply hiddup
        rw [h1.symm.trans hid]
        exact List.mem_map.mpr ⟨it', hit', rfl⟩
      · rw [if_neg hc] at hid ⊢
        exact hbound it' (List.mem_cons_of_mem it hit') m₀ hm₀ hid

/-- At the point where a checkout passes the availability and stock checks,
every line's quantity is bounded by the stock of the (unique) stored row
with its id, and the line ids are pairwise distinct. -/
lemma checkout_bound_of_valid (db : DB) (items : List CartLine)
    (hnd : (db.menus.map (·.id)).Nodup)
    (hLines : invalidLines items = [])
    (hLen : (availableMenus db (menuIdsOf items)).length = (menuIdsOf items).length)
    (hErrs : stockErrorsFor (availableMenus db (menuIdsOf items)) items = []) :
    (∀ it ∈ items, ∀ m ∈ db.menus, m.id = it.id → it.quantity ≤ m.stock)
    ∧ (items.map (·.id)).Nodup := by
  have hLnodup := availableMenus_ids_nodup db (menuIdsOf items) hnd
  have hLsub := availableMenus_ids_subset db (menuIdsOf items)
  have hlen2 : ((availableMenus db (menuIdsOf items)).map (·.id)).length =
      (menuIdsOf items).length := by
    rw [List.length_map]
    exact hLen
  have hperm : List.Perm ((availableMenus db (menuIdsOf items)).map (·.id))
      (menuIdsOf items) :=
    (List.subperm_of_subset hLnodup hLsub).perm_of_length_le (le_of_eq hlen2.symm)
  have hT := menuIdsOf_eq_map hLines
  constructor
  · intro it hit m hm hmid
    have hidT : it.id ∈ menuIdsOf items := by
      rw [hT]
      exact List.mem_map.mpr ⟨it, hit, rfl⟩
    have hidL : it.id ∈ (availableMenus db (menuIdsOf items)).map (·.id) :=
      hperm.mem_iff.mpr hidT
    obtain ⟨mi, hmi, hmiid⟩ := List.mem_map.mp hidL
    have hsome : ((availableMenus db (menuIdsOf items)).find?
        (fun mm => mm.id == it.id)).isSome :=
      List.find?_isSome.mpr ⟨mi, hmi, beq_iff_eq.mpr hmiid⟩
    obtain ⟨m₀, hfind⟩ := Option.isSome_iff_exists.mp hsome
    have hm₀mem : m₀ ∈ availableMenus db (menuIdsOf items) :=
      List.mem_of_find?_eq_some hfind
    have hm₀id : m₀.id = it.id := by
      have hb := List.find?_some hfind
      exact beq_iff_eq.mp hb
    have h := List.filterMap_eq_nil_iff.mp hErrs it hit
    simp only [hfind] at h
    have hnlt : ¬m₀.stock < it.quantity := by
      intro hlt
      rw [if_pos hlt] at h
      cases h
    have hm₀db : m₀ ∈ db.menus := List.mem_of_mem_filter hm₀mem
    have hEq : m = m₀ :=
      List.inj_on_of_nodup_map hnd hm hm₀db (hmid.trans hm₀id.symm)
    rw [hEq]
    exact not_lt.mp hnlt
  · rw [← hT]
    exact hperm.nodup_iff.mp hLnodup

/-- C3: starting from a store in which every menu stock is non-negative
(and menu ids are unique), any single stock-adjustment request and any
single checkout request — successful or failed — commits a store in which
every menu stock is still non-negative: the adjuster clamps `subtract` at
zero, and the checkout decrement only runs for carts whose per-line
quantities passed the stock check. -/
theorem stock_never_negative (db : DB)
    (hpos : ∀ m ∈ db.menus, 0 ≤ m.stock)
    (hnd : (db.menus.map (·.id)).Nodup) :
    (∀ userId id body, ∀ m ∈ (stockPUT db userId id body).2.menus, 0 ≤ m.stock)
    ∧ (∀ userId tableId items,
        ∀ m ∈ (checkout db userId tableId items).2.menus, 0 ≤ m.stock) := by
  refine ⟨fun userId id body => stockPUT_menus_nonneg db userId id body hpos, ?_⟩
  intro userId tableId items m hm
  cases userId with
  | none => exact hpos m hm
  | some uid =>
    by_cases h1 : tableId = "" ∨ items = []
    · simp only [checkout, if_pos h1] at hm
      exact hpos m hm
    · cases hTbl : db.tables.find? (fun t => t.id == tableId) with
      | none =>
        simp only [checkout, if_neg h1, hTbl] at hm
        exact hpos m hm
      | some tbl =>
        rw [not_or] at h1
        by_cases h2 : invalidLines items = []
        · rw [checkout_valid_eq db uid tableId items tbl h1.1 h1.2 hTbl h2] at hm
          unfold checkoutCore at hm
          by_cases h3 : menuIdsOf items = []
          · rw [if_pos h3] at hm
            exact hpos m hm
          · rw [if_neg h3] at hm
            by_cases h4 : (availableMenus db (menuIdsOf items)).length =
                (menuIdsOf items).length
            · rw [if_neg (not_not_intro h4)] at hm
              by_cases h5 : stockErrorsFor (availableMenus db (menuIdsOf items))
                  items = []
              · rw [if_neg (not_not_intro h5)] at hm
                cases hplan : computePlan (availableMenus db (menuIdsOf items))
                    items with
                | error msg =>
                  simp only [hplan] at hm
                  exact hpos m hm
                | ok plan =>
                  simp only [hplan] at hm
                  by_cases h6 : prismaIntOk plan items = true
                  · rw [if_pos h6] at hm
                    obtain ⟨hbound, hndItems⟩ :=
                      checkout_bound_of_valid db items hnd h2 h4 h5
                    exact decrementStocks_nonneg items db.menus hpos hbound
                      hndItems m hm
                  · rw [if_neg h6] at hm
                    exact hpos m hm
              · rw [if_pos h5] at hm
                exact hpos m hm
            · rw [if_pos h4] at hm
              exact hpos m hm
        · simp only [checkout, if_neg (not_or.mpr h1), hTbl, if_pos h2] at hm
          exact hpos m hm

/-- C1 witness: ordering 5 sodas with stock 2 yields the insufficient-stock
reply and an unchanged store. -/
theorem checkout_insufficient_stock_witness :
    checkout sampleDB (some "u1") "t1" [⟨"m2", 5, none⟩] =
      (.insufficientStock (stockErrorsFor
        (availableMenus sampleDB (menuIdsOf [⟨"m2", 5, none⟩])) [⟨"m2", 5, none⟩]),
       sampleDB) :=
  (checkout_insufficient_stock sampleDB "u1" "t1" [⟨"m2", 5, none⟩]
    ⟨"t1", "Table 1", none⟩ (by decide) (by decide) (by decide) (by decide)
    (by decide)
    ⟨⟨"m2", 5, none⟩, by decide, ⟨"m2", "Soda", 8000, 2, true⟩, by decide,
      by decide⟩).1

/-- C2 witness: the spec's scenario A — 3 burgers at 25000 commit an order
built from the validation-time plan. -/
theorem checkout_success_snapshot_witness :
    (checkout sampleDB (some "u1") "t1" [⟨"m1", 3, none⟩]).1 =
      .created (builtOrder "u1" "t1" [⟨"m1", 25000, 3, 75000, none⟩]) :=
  (checkout_success_snapshot sampleDB "u1" "t1" [⟨"m1", 3, none⟩]
    ⟨"t1", "Table 1", none⟩ [⟨"m1", 25000, 3, 75000, none⟩] (by decide) (by decide)
    (by decide) (by decide) (by decide) (by decide) rfl (by decide)).1

/-- C3 witness: after the scenario-A checkout the burger row sits at stock 7,
which is non-negative. -/
theorem stock_never_negative_witness :
    0 ≤ (MenuItem.mk "m1" "Burger" 25000 7 true).stock :=
  (stock_never_negative sampleDB (by decide) (by decide)).2 (some "u1") "t1"
    [⟨"m1", 3, none⟩] ⟨"m1", "Burger", 25000, 7, true⟩ (by decide)

/-- C4 witness: subtracting 20 from stock 10 clamps at 0 with delta −10. -/
theorem stock_subtract_clamps_witness :
    (stockPUT sampleDB (some "u1") "m1" ⟨some "subtract", some 20, none⟩).1 =
      .success (stockSuccessMessage .subtract 20)
        ⟨"m1", "Burger", 25000, max 0 ((10 : ℚ) - 20), true⟩
        ⟨10, max 0 ((10 : ℚ) - 20), -(min (20 : ℚ) 10), .subtract⟩ :=
  (stock_subtract_clamps sampleDB "u1" "m1" 20 ⟨"m1", "Burger", 25000, 10, true⟩
    (by decide) (by decide) (by decide)).1

/-- C5 witness: setting stock to 5 on a row at 10 commits exactly 5 with
delta −5. -/
theorem stock_set_exact_witness :
    (stockPUT sampleDB (some "u1") "m1" ⟨some "set", some 5, none⟩).1 =
      .success (stockSuccessMessage .set 5) ⟨"m1", "Burger", 25000, 5, true⟩
        ⟨10, 5, (5 : ℚ) - 10, .set⟩ :=
  (stock_set_exact sampleDB "u1" "m1" 5 ⟨"m1", "Burger", 25000, 10, true⟩
    (by decide) (by decide) (by decide)).1

/-- C6 witness (amended claim): a line with an empty id is rejected with the
malformed-line error and an unchanged store. -/
theorem checkout_malformed_lines_witness :
    checkout sampleDB (some "u1") "t1" [⟨"", 1, none⟩] =
      (.invalidItems (invalidLines [⟨"", 1, none⟩]), sampleDB) :=
  (checkout_malformed_lines sampleDB "u1" "t1" [⟨"", 1, none⟩]
    ⟨"t1", "Table 1", none⟩ (by decide) (by decide)
    ⟨⟨"", 1, none⟩, by decide, Or.inl rfl⟩).1

/-- C7 witness: updating a nonexistent menu id with a well-formed body
replies 404 and leaves the store untouched. -/
theorem stockPUT_error_paths_witness :
    stockPUT sampleDB (some "u1") "zzz" ⟨some "add", some 5, none⟩ =
      (.notFound, sampleDB) :=
  ((stockPUT_error_paths sampleDB "u1" "zzz" ⟨some "add", some 5, none⟩).1
    ⟨(.add, 5, none),
      parseStockBody_ok_of_valid (s := "add") (a := .add) rfl (by decide) (by decide)⟩
    (by decide)).1

/-- C8 witness: issuing `set 4` twice on the burger row leaves stock 4 and
the second reply reports delta 0. -/
theorem stock_set_idempotent_witness :
    (stockPUT (stockPUT sampleDB (some "u1") "m1" ⟨some "set", some 4, none⟩).2
        (some "u1") "m1" ⟨some "set", some 4, none⟩).1 =
      .success (stockSuccessMessage .set 4) ⟨"m1", "Burger", 25000, 4, true⟩
        ⟨4, 4, 0, .set⟩ :=
  (stock_set_idempotent sampleDB "u1" "m1" 4 ⟨"m1", "Burger", 25000, 10, true⟩
    (by decide) (by decide) (by decide)).2.1

/-- C9 witness: a cart repeating id `m1` — which exists, is available and has
ample stock — fails with the availability error and an empty missing list. -/
theorem checkout_duplicate_ids_witness :
    checkout sampleDB (some "u1") "t1" [⟨"m1", 1, none⟩, ⟨"m1", 1, none⟩] =
      (.missingItems [], sampleDB) :=
  (checkout_duplicate_ids sampleDB "u1" "t1" [⟨"m1", 1, none⟩, ⟨"m1", 1, none⟩]
    ⟨"t1", "Table 1", none⟩ (by decide) (by decide) (by decide) (by decide)
    (by decide) (by decide)).1

/-- C10 witness: subtracting 9 from a stock of 2 answers a message naming 9
while the structured change is −2. -/
theorem stock_subtract_message_vs_change_witness :
    (stockPUT sampleDB (some "u1") "m2" ⟨some "subtract", some 9, none⟩).1 =
      .success ("Stock updated successfully. Subtracted " ++ toString (9 : ℚ)
          ++ " items.")
        ⟨"m2", "Soda", 8000, 0, true⟩ ⟨2, 0, -(2 : ℚ), .subtract⟩ :=
  (stock_subtract_message_vs_change sampleDB "u1" "m2" 9
    ⟨"m2", "Soda", 8000, 2, true⟩ (by decide) (by decide) (by decide) (by decide)).1

example :
    (checkout sampleDB (some "u1") "t1" [⟨"m1", 3, none⟩]).1 =
      .created ⟨"u1", "t1", "pending", "pending", 75000,
        [⟨"m1", 25000, 3, 75000, none⟩]⟩ := by decide

example :
    (checkout sampleDB (some "u1") "t1" [⟨"m2", 5, none⟩]) =
      (.insufficientStock [⟨"m2", "Soda", 5, 2⟩], sampleDB) := by decide

example :
    (checkout sampleDB (some "u1") "t1" [⟨"m1", 3/2, none⟩]).1 = .serverError := by decide

example :
    (stockPUT sampleDB (some "u1") "m1" ⟨some "subtract", some 20, none⟩).1 =
      .success "Stock updated successfully. Subtracted 20 items."
        ⟨"m1", "Burger", 25000, 0, true⟩ ⟨10, 0, -10, .subtract⟩ := by decide

example :
    (checkout sampleDB (some "u1") "t1" [⟨"m1", 3, none⟩]).2.menus =
      [⟨"m1", "Burger", 25000, 7, true⟩, ⟨"m2", "Soda", 8000, 2, true⟩] := by decide

example :
    (checkout sampleDB (some "u1") "t1" [⟨"m1", 1, none⟩, ⟨"m1", 1, none⟩]) =
      (.missingItems [], sampleDB) := by decide

end RestaurantApp
